import Mathlib

/-!
Verification of the cool-vibes-travel-agent repository.

This file shallowly embeds the Redis-backed preference store and the
preference tools of the repository (src/seeding.py, src/tools/user_tools.py,
src/data/mock_events.py) and proves the behavioural claims about them.

Modelling conventions:
* A Redis instance is a list of hash keys, each an association list from
  field names to string values (field order models insertion order).
* JSON documents parsed by the Python json module are values of `Json`
  (numbers simplified to integers; number formatting is irrelevant to
  every claim proved here).
* External effects (uuid generation, embedding calls, the wall clock,
  exceptions raised by the Redis client) are passed in as explicit
  parameters or oracles, so every function is total and executable.
-/

namespace CoolVibes

/-- JSON values as produced by Python json.load (numbers as integers). -/
inductive Json where
  | null
  | bool (b : Bool)
  | num (n : Int)
  | str (s : String)
  | arr (elems : List Json)
  | obj (fields : List (String × Json))
deriving Repr, Inhabited

/-- Escape a string the way Python json.dumps quotes it (quote and
backslash; control characters do not occur in the claims). -/
def jsonEscape (s : String) : String :=
  s.toList.foldl (fun acc c =>
    if c = '"' then acc ++ "\\\"" else if c = '\\' then acc ++ "\\\\" else acc.push c) ""

mutual

/-- Model of Python json.dumps (default separators). -/
def Json.dumps : Json → String
  | .null => "null"
  | .bool true => "true"
  | .bool false => "false"
  | .num n => toString n
  | .str s => "\"" ++ jsonEscape s ++ "\""
  | .arr xs => "[" ++ Json.dumpsList xs ++ "]"
  | .obj fs => "\x7b" ++ Json.dumpsObj fs ++ "\x7d"

/-- Comma-separated serialization of a JSON array body. -/
def Json.dumpsList : List Json → String
  | [] => ""
  | [x] => Json.dumps x
  | x :: y :: xs => Json.dumps x ++ ", " ++ Json.dumpsList (y :: xs)

/-- Comma-separated serialization of a JSON object body. -/
def Json.dumpsObj : List (String × Json) → String
  | [] => ""
  | [(k, v)] => "\"" ++ jsonEscape k ++ "\": " ++ Json.dumps v
  | (k, v) :: y :: xs =>
      "\"" ++ jsonEscape k ++ "\": " ++ Json.dumps v ++ ", " ++ Json.dumpsObj (y :: xs)

end

/-- Python str.lower(), character by character (all strings involved are
ASCII). -/
def pyLower (s : String) : String := ⟨s.data.map Char.toLower⟩

/-- Python truthiness of a JSON value (`if not user_memories: ...`). -/
def Json.truthy : Json → Bool
  | .null => false
  | .bool b => b
  | .num n => n != 0
  | .str s => s != ""
  | .arr xs => !xs.isEmpty
  | .obj fs => !fs.isEmpty

/-- The fields of a JSON object; `none` when the value is not an object
(Python would raise AttributeError or TypeError on dict operations). -/
def Json.getObj : Json → Option (List (String × Json))
  | .obj fs => some fs
  | _ => none

/-! ## Redis model -/

/-- Redis KEYS glob matching over character lists (`*` matches any run,
`?` any single character; other characters match literally). -/
def globMatch : List Char → List Char → Bool
  | [], s => s.isEmpty
  | p :: ps, s =>
    if p = '*' then s.tails.any (fun t => globMatch ps t)
    else
      match s with
      | [] => false
      | c :: cs => (p = '?' || p = c) && globMatch ps cs

/-- Redis KEYS glob matching on strings. -/
def stringGlob (pattern s : String) : Bool :=
  globMatch pattern.toList s.toList

/-- Redis state: hash-typed keys, each mapping field names to values.
The list order models key creation order; redis field values are modelled
as strings (the byte payloads the Python client reads back). -/
structure RedisState where
  hashes : List (String × List (String × String))
deriving Repr, DecidableEq, Inhabited

/-- Write a field into an association list, in place when present,
appended otherwise (redis HSET field semantics). -/
def setField (fields : List (String × String)) (f v : String) :
    List (String × String) :=
  cond (fields.any (fun p => p.1 == f))
    (fields.map (fun p => cond (p.1 == f) (f, v) p))
    (fields ++ [(f, v)])

/-- HGETALL: the field table of a key (empty when the key is absent). -/
def RedisState.hgetall (st : RedisState) (key : String) :
    List (String × String) :=
  match st.hashes.lookup key with
  | some fields => fields
  | none => []

/-- DEL of a single key. -/
def RedisState.del (st : RedisState) (key : String) : RedisState :=
  ⟨st.hashes.filter (fun p => p.1 != key)⟩

/-- HSET of a single field. -/
def RedisState.hset (st : RedisState) (key f v : String) : RedisState :=
  cond (st.hashes.any (fun p => p.1 == key))
    ⟨st.hashes.map (fun p => cond (p.1 == key) (key, setField p.2 f v) p)⟩
    ⟨st.hashes ++ [(key, [(f, v)])]⟩

/-- HSET with a mapping (Python `hset(key, mapping={...})`). -/
def RedisState.hsetMapping (st : RedisState) (key : String)
    (m : List (String × String)) : RedisState :=
  m.foldl (fun s fv => s.hset key fv.1 fv.2) st

/-- HKEYS: the field names of a hash. -/
def RedisState.hkeys (st : RedisState) (key : String) : List String :=
  (st.hgetall key).map Prod.fst

/-- KEYS: all keys matching a glob pattern. -/
def RedisState.keys (st : RedisState) (pattern : String) : List String :=
  (st.hashes.map Prod.fst).filter (fun k => stringGlob pattern k)

/-- DEL of every key matching a pattern (the bulk deletes in seeding and
reseeding). -/
def RedisState.delPattern (st : RedisState) (pattern : String) : RedisState :=
  ⟨st.hashes.filter (fun p => !stringGlob pattern p.1)⟩

/-- The part of the state visible under a pattern. -/
def RedisState.restrict (st : RedisState) (pattern : String) :
    List (String × List (String × String)) :=
  st.hashes.filter (fun p => stringGlob pattern p.1)

/-! ## Seeding (src/seeding.py) -/

/-- What opening and parsing the seed file can observe: the file is
missing, it exists but json.load raises JSONDecodeError, or it parses
to a document. -/
inductive SeedFile where
  | missing
  | invalid
  | parsed (doc : Json)

/-- The hash key used by seed_user_preferences. -/
def preferencesKey : String := "cool-vibes-agent:Preferences"

/-- seed_user_preferences from src/seeding.py: read the seed file,
extract user_memories, delete the preferences key and write one hash
field per user holding the json.dumps of the insight list of that user.
A document that is not a JSON object makes seed_data.get raise, and a
truthy non-mapping user_memories makes .items() raise after the delete;
both are caught by the blanket except and return False. -/
def seed_user_preferences (file : SeedFile) (st : RedisState) :
    Bool × RedisState :=
  match file with
  | .missing => (false, st)
  | .invalid => (false, st)
  | .parsed doc =>
    match doc.getObj with
    | none => (false, st)
    | some fields =>
      let user_memories := (fields.lookup "user_memories").getD (.obj [])
      cond user_memories.truthy
        (match user_memories with
         | .obj users =>
           (true, users.foldl
             (fun s p => s.hset preferencesKey p.1 p.2.dumps)
             (st.del preferencesKey))
         | _ => (false, st.del preferencesKey))
        (false, st)

/-- The KEYS pattern get_user_preferences scans for a user. -/
def userPrefPattern (user : String) : String :=
  "cool-vibes-agent:UserPref:" ++ user ++ ":*"

/-- The loop body of get_user_preferences for one scanned key: skip an
empty hash, drop the embedding field, and keep the record only when it
carries a preference_text field. -/
def prefEntry (st : RedisState) (key : String) :
    Option (List (String × String)) :=
  let pref_data := st.hgetall key
  cond pref_data.isEmpty none
    (let decoded := pref_data.filter (fun p => p.1 != "embedding")
     match decoded.lookup "preference_text" with
     | none => none
     | some text =>
       some [("insight", text),
             ("source", (decoded.lookup "source").getD "unknown"),
             ("timestamp", (decoded.lookup "timestamp").getD "")])

/-- get_user_preferences from src/seeding.py: scan the UserPref keys of
the user, drop the embedding field, keep only records carrying a
preference_text field and format each as an insight entry. -/
def get_user_preferences (st : RedisState) (user_name : String) :
    List (List (String × String)) :=
  (st.keys (userPrefPattern user_name)).filterMap (prefEntry st)

/-! ## Vector seeding (seed_user_preferences_with_vectors) -/

/-- External inputs of the vector seeding path: the uuid stream consumed
by store_preference, the embedding service, and the wall clock. -/
structure VecEnv where
  ids : Nat → String
  emb : String → String
  now : String

/-- The textual payload a JSON insight value contributes when it is
passed on as preference text (a string is passed as is; any other truthy
value is serialized — a deterministic stand-in for what the external
store would do with a non-string payload). -/
def Json.asText : Json → String
  | .str s => s
  | j => j.dumps

/-- Modelled from the spec: store_preference lives in context_provider,
which is not under src/ (seeding.py only imports and calls it); per the
persisted key layout of the spec it writes a
cool-vibes-agent:UserPref:user:id hash with preference_text, source,
timestamp and embedding fields. -/
def store_preference (env : VecEnv) (st : RedisState)
    (user preference source id : String) : RedisState :=
  st.hsetMapping ("cool-vibes-agent:UserPref:" ++ user ++ ":" ++ id)
    [("preference_text", preference), ("source", source),
     ("timestamp", env.now), ("embedding", env.emb preference)]

/-- Seed the insight list of one user, threading the uuid counter.
A non-object item makes insight_dict.get raise, which the per-user
handler catches, abandoning the rest of the list of that user. -/
def seedInsights (env : VecEnv) (user : String) :
    List Json → RedisState × Nat → RedisState × Nat
  | [], acc => acc
  | item :: rest, (st, n) =>
    match item.getObj with
    | none => (st, n)
    | some fs =>
      let v := (fs.lookup "insight").getD (.str "")
      cond v.truthy
        (seedInsights env user rest
          (store_preference env st user v.asText "seed" (env.ids n), n + 1))
        (seedInsights env user rest (st, n))

/-- The bulk-delete patterns of the vector seeding path. -/
def upPattern : String := "cool-vibes-agent:UserPref:*"

/-- The conversation keys deleted before vector seeding. -/
def convPattern : String := "cool-vibes-agent:Conversations:*"

/-- seed_user_preferences_with_vectors from src/seeding.py: delete every
UserPref and Conversations key, then read the seed file and store each
truthy insight with an embedding. The deletes happen before the file is
read, so they run even when the file is missing. A user whose insights
value is not a list fails inside the per-user handler and is skipped;
the function still returns True once the loop is reached. -/
def seed_user_preferences_with_vectors (file : SeedFile) (env : VecEnv)
    (st : RedisState) : Bool × RedisState :=
  let cleared := (st.delPattern upPattern).delPattern convPattern
  match file with
  | .missing => (false, cleared)
  | .invalid => (false, cleared)
  | .parsed doc =>
    match doc.getObj with
    | none => (false, cleared)
    | some fields =>
      let user_memories := (fields.lookup "user_memories").getD (.obj [])
      cond user_memories.truthy
        (match user_memories with
         | .obj users =>
           (true, (users.foldl (fun acc p =>
             match p.2 with
             | .arr items => seedInsights env p.1 items acc
             | _ => acc) (cleared, 0)).1)
         | _ => (false, cleared))
        (false, cleared)

/-! ## Preference tools (src/tools/user_tools.py) -/

/-- The Context key remember_preference writes for a user and doc id. -/
def contextKey (user docId : String) : String :=
  "cool-vibes-agent-vnext:Context:" ++ user ++ ":" ++ docId

/-- The KEYS pattern get_semantic_preferences scans for a user. -/
def contextPattern (user : String) : String :=
  "cool-vibes-agent-vnext:Context:" ++ user ++ ":*"

/-- External inputs of remember_preference: the module globals set by
main.py, the embedding call (which may raise), the truncated uuid, the
wall clock, and a possible exception from the Redis HSET. -/
structure RememberEnv where
  clientAvailable : Bool
  vectorizerAvailable : Bool
  embed : Except String String
  hsetFault : Option String
  docId : String
  now : String

/-- The field mapping remember_preference stores (byte strings of the
source modelled as strings). -/
def rememberFields (user preference emb now : String) :
    List (String × String) :=
  [("content", preference), ("role", "user"), ("mime_type", "text/plain"),
   ("user_id", user), ("application_id", "cool-vibes-travel-agent-vnext"),
   ("agent_id", "agent_" ++ pyLower user), ("embedding", emb),
   ("timestamp", now), ("source", "learned")]

/-- remember_preference from src/tools/user_tools.py: guard on the
globals, embed the preference, and HSET a fresh Context key; any raised
exception is turned into an error string. -/
def remember_preference (env : RememberEnv) (user_name preference : String)
    (st : RedisState) : String × RedisState :=
  cond (!env.clientAvailable || !env.vectorizerAvailable)
    ("❌ Preference storage service is not available.", st)
    (match env.embed with
    | .error e => ("❌ Sorry, I couldn\x27t store that preference: " ++ e, st)
    | .ok emb =>
      match env.hsetFault with
      | some e => ("❌ Sorry, I couldn\x27t store that preference: " ++ e, st)
      | none =>
        let key := contextKey user_name env.docId
        (("✅ I\x27ll remember that " ++ user_name ++ " " ++ preference),
         st.hsetMapping key (rememberFields user_name preference emb env.now)))

/-- One scored row of the semantic scan. -/
structure SearchResult where
  content : String
  source : String
  similarity : Rat
deriving Repr, DecidableEq

/-- External inputs of get_semantic_preferences. The cosine similarity of
the query embedding against a stored embedding byte string is abstracted
into the rational-valued function sim (the source computes it with numpy
over float32 buffers). -/
structure SearchEnv where
  clientAvailable : Bool
  vectorizerAvailable : Bool
  embedQuery : Except String String
  redisFault : Option String
  sim : String → String → Rat

/-- The scored candidate rows: one per Context key of the user whose hash
has both an embedding and a content field, scored against the query
embedding. -/
def semanticCandidates (sim : String → Rat) (user : String)
    (st : RedisState) : List SearchResult :=
  (st.keys (contextPattern user)).filterMap (fun key =>
    let doc := st.hgetall key
    match doc.lookup "embedding", doc.lookup "content" with
    | some emb, some content =>
        some ⟨content, (doc.lookup "source").getD "unknown", sim emb⟩
    | _, _ => none)

/-- The descending comparison results.sort uses (reverse=True). -/
def simDescending (a b : SearchResult) : Bool :=
  decide (b.similarity ≤ a.similarity)

/-- The top-5 rows by similarity (results.sort reverse then slice). -/
def semanticTop (sim : String → Rat) (user : String) (st : RedisState) :
    List SearchResult :=
  ((semanticCandidates sim user st).mergeSort simDescending).take 5

/-- One formatted line of the reply (float formatting abstracted). -/
def formatResult (r : SearchResult) : String :=
  "- " ++ r.content ++ " (from " ++ r.source ++ ", relevance: " ++
    toString r.similarity ++ ")"

/-- get_semantic_preferences from src/tools/user_tools.py: guard on the
globals, embed the query, scan the Context keys of the user, score,
sort descending, take five and format; exceptions become error strings. -/
def get_semantic_preferences (env : SearchEnv) (user_name query : String)
    (st : RedisState) : String :=
  cond (!env.clientAvailable || !env.vectorizerAvailable)
    "❌ Semantic search service is not available."
    (match env.embedQuery with
    | .error e => "❌ Error searching preferences: " ++ e
    | .ok qEmb =>
      match env.redisFault with
      | some e => "❌ Error searching preferences: " ++ e
      | none =>
        cond (st.keys (contextPattern user_name)).isEmpty
          ("No preferences found for " ++ user_name ++ ".")
          (let top := semanticTop (env.sim qEmb) user_name st
           cond top.isEmpty
             ("No preferences found for " ++ user_name ++ " matching \x27" ++
               query ++ "\x27.")
             ("User " ++ user_name ++ "\x27s preferences relevant to \x27" ++
               query ++ "\x27:\n" ++
               String.intercalate "\n" (top.map formatResult))))

/-- External inputs of reseed_user_preferences: the Redis global, a
possible exception from the bulk KEYS/DEL, a possible ImportError from
the late imports, the REDIS_URL variable, the seed.json load, and the
outcome of the delegated reseeding call (an exception or its Bool). -/
structure ReseedEnv where
  clientAvailable : Bool
  redisFault : Option String
  importFault : Option String
  redisUrl : Option String
  loadSeed : Except String Json
  seedResult : Except String Bool

/-- reseed_user_preferences from src/tools/user_tools.py: delete the
Context keys, drop the index (failures there are swallowed), reload
seed.json and delegate the reseed; every raised exception is caught and
returned as an error string. -/
def reseed_user_preferences (env : ReseedEnv) (st : RedisState) :
    String × RedisState :=
  cond (!env.clientAvailable)
    ("❌ Cannot reseed - Redis client not available", st)
    (match env.redisFault with
    | some e => ("❌ Failed to reseed context: " ++ e, st)
    | none =>
      let cleared := st.delPattern "cool-vibes-agent-vnext:Context:*"
      match env.importFault with
      | some e => ("❌ Failed to reseed context: " ++ e, cleared)
      | none =>
        match env.redisUrl with
        | none => ("❌ REDIS_URL environment variable not set", cleared)
        | some _ =>
          match env.loadSeed with
          | .error e => ("❌ Failed to reseed context: " ++ e, cleared)
          | .ok doc =>
            match doc.getObj with
            | none =>
              ("❌ Failed to reseed context: AttributeError", cleared)
            | some fields =>
              match ((fields.lookup "user_memories").getD (.obj [])).getObj with
              | none =>
                ("❌ Failed to reseed context: AttributeError", cleared)
              | some _ =>
                match env.seedResult with
                | .error e => ("❌ Failed to reseed context: " ++ e, cleared)
                | .ok true =>
                  ("✅ Successfully reset and re-seeded all user context from seed.json into RedisProvider",
                   cleared)
                | .ok false =>
                  ("⚠️ Reseed completed with warnings - check logs", cleared))

/-! ## Mock events (src/data/mock_events.py) -/

/-- EVENTS_DATA from src/data/mock_events.py: the static dictionary of
mock sports events keyed by lowercase city name, each record a dict with
id, sport, teams, venue, date, time and city. -/
def EVENTS_DATA : List (String × List (List (String × String))) :=
  [("new york",
    [[("id", "knicks_lakers_nov15"), ("sport", "NBA"),
      ("teams", "Knicks vs Lakers"), ("venue", "Madison Square Garden"),
      ("date", "2025-11-15"), ("time", "19:30"), ("city", "New York")],
     [("id", "rangers_bruins_nov16"), ("sport", "NHL"),
      ("teams", "Rangers vs Bruins"), ("venue", "Madison Square Garden"),
      ("date", "2025-11-16"), ("time", "19:00"), ("city", "New York")],
     [("id", "nets_celtics_nov20"), ("sport", "NBA"),
      ("teams", "Nets vs Celtics"), ("venue", "Barclays Center"),
      ("date", "2025-11-20"), ("time", "19:30"), ("city", "New York")]]),
   ("los angeles",
    [[("id", "lakers_warriors_nov20"), ("sport", "NBA"),
      ("teams", "Lakers vs Warriors"), ("venue", "Crypto.com Arena"),
      ("date", "2025-11-20"), ("time", "19:30"), ("city", "Los Angeles")],
     [("id", "clippers_suns_nov22"), ("sport", "NBA"),
      ("teams", "Clippers vs Suns"), ("venue", "Crypto.com Arena"),
      ("date", "2025-11-22"), ("time", "20:00"), ("city", "Los Angeles")],
     [("id", "kings_avalanche_nov18"), ("sport", "NHL"),
      ("teams", "Kings vs Avalanche"), ("venue", "Crypto.com Arena"),
      ("date", "2025-11-18"), ("time", "19:00"), ("city", "Los Angeles")]]),
   ("chicago",
    [[("id", "bulls_heat_nov17"), ("sport", "NBA"),
      ("teams", "Bulls vs Heat"), ("venue", "United Center"),
      ("date", "2025-11-17"), ("time", "19:00"), ("city", "Chicago")],
     [("id", "blackhawks_redwings_nov19"), ("sport", "NHL"),
      ("teams", "Blackhawks vs Red Wings"), ("venue", "United Center"),
      ("date", "2025-11-19"), ("time", "19:30"), ("city", "Chicago")],
     [("id", "bears_packers_nov24"), ("sport", "NFL"),
      ("teams", "Bears vs Packers"), ("venue", "Soldier Field"),
      ("date", "2025-11-24"), ("time", "13:00"), ("city", "Chicago")]]),
   ("boston",
    [[("id", "celtics_sixers_nov21"), ("sport", "NBA"),
      ("teams", "Celtics vs 76ers"), ("venue", "TD Garden"),
      ("date", "2025-11-21"), ("time", "19:30"), ("city", "Boston")],
     [("id", "bruins_maple_leafs_nov23"), ("sport", "NHL"),
      ("teams", "Bruins vs Maple Leafs"), ("venue", "TD Garden"),
      ("date", "2025-11-23"), ("time", "19:00"), ("city", "Boston")]])]

/-- Modelled from the spec: the mock-events lookup itself (find_events
in tools/sports_tools.py) is not under src/; per the spec it is direct
dictionary access by lowercase city string, unknown cities return empty
results and there is no fuzzy matching. -/
def find_events (city : String) : List (List (String × String)) :=
  match EVENTS_DATA.lookup (pyLower city) with
  | some evs => evs
  | none => []

/-- An error reply of the tools: the string opens with the cross mark. -/
def isErrorMessage (s : String) : Prop := ∃ rest, s = "❌" ++ rest

/-! ## Glob matching lemmas -/

theorem globMatch_star_any (s : List Char) : globMatch ['*'] s = true := by
  show (if ('*' : Char) = '*' then s.tails.any (fun t => globMatch [] t)
    else _) = true
  rw [if_pos rfl]
  induction s with
  | nil => decide
  | cons c cs ih =>
    simp only [List.tails_cons, List.any_cons]
    rw [ih]
    simp

theorem globMatch_lit_extend (a ps s : List Char) (hstar : '*' ∉ a) :
    globMatch (a ++ ps) (a ++ s) = globMatch ps s := by
  induction a with
  | nil => rfl
  | cons x xs ih =>
    simp only [List.mem_cons, not_or] at hstar
    have hx1 : ¬ x = '*' := fun h => hstar.1 h.symm
    simp only [List.cons_append, globMatch, if_neg hx1]
    simp [ih hstar.2]

theorem globMatch_lit_ne (a b ps cs : List Char) (hlen : a.length = b.length)
    (hne : a ≠ b) (hstar : '*' ∉ a) (hq : '?' ∉ a) :
    globMatch (a ++ ps) (b ++ cs) = false := by
  induction a generalizing b with
  | nil =>
    cases b with
    | nil => exact absurd rfl hne
    | cons y ys => simp at hlen
  | cons x xs ih =>
    cases b with
    | nil => simp at hlen
    | cons y ys =>
      simp only [List.mem_cons, not_or] at hstar hq
      have hx1 : ¬ x = '*' := fun h => hstar.1 h.symm
      have hx2 : ¬ x = '?' := fun h => hq.1 h.symm
      by_cases hxy : x = y
      · subst hxy
        have hys : xs ≠ ys := fun hcontra => hne (by rw [hcontra])
        have hlen2 : xs.length = ys.length := by simpa using hlen
        simp [globMatch, hx1, hx2, ih ys hlen2 hys hstar.2 hq.2]
      · simp [globMatch, hx1, hx2, hxy]

/-! ## Association list lemmas -/

theorem lookup_filter_ne {α : Type} (l : List (String × α)) (k bad : String)
    (hk : k ≠ bad) :
    (l.filter (fun p => p.1 != bad)).lookup k = l.lookup k := by
  induction l with
  | nil => rfl
  | cons p rest ih =>
    obtain ⟨a, b⟩ := p
    by_cases h : a = bad
    · have hf : ((a, b).1 != bad) = false := by simp [h]
      have hk2 : (k == a) = false := beq_eq_false_iff_ne.mpr (h ▸ hk)
      rw [List.filter_cons, if_neg (by simp [hf])]
      simp [List.lookup, hk2, ih]
    · have hf : ((a, b).1 != bad) = true := by simp [h]
      rw [List.filter_cons, if_pos hf]
      by_cases hka : k = a
      · have : (k == a) = true := beq_iff_eq.mpr hka
        simp [List.lookup, this]
      · have : (k == a) = false := beq_eq_false_iff_ne.mpr hka
        simp [List.lookup, this, ih]

theorem lookup_filter_self {α : Type} (l : List (String × α)) (k : String) :
    (l.filter (fun p => p.1 != k)).lookup k = none := by
  induction l with
  | nil => rfl
  | cons p rest ih =>
    obtain ⟨a, b⟩ := p
    by_cases h : a = k
    · rw [List.filter_cons, if_neg (by simp [h])]
      exact ih
    · rw [List.filter_cons, if_pos (by simp [h])]
      have : (k == a) = false := beq_eq_false_iff_ne.mpr (fun hc => h hc.symm)
      simp [List.lookup, this, ih]

theorem any_key_eq_lookup_isSome {α : Type} (l : List (String × α))
    (k : String) :
    l.any (fun p => p.1 == k) = (l.lookup k).isSome := by
  induction l with
  | nil => rfl
  | cons p rest ih =>
    obtain ⟨a, b⟩ := p
    by_cases h : a = k
    · have h1 : (a == k) = true := beq_iff_eq.mpr h
      have h2 : (k == a) = true := beq_iff_eq.mpr h.symm
      simp [List.any_cons, h1, List.lookup, h2]
    · have h1 : (a == k) = false := beq_eq_false_iff_ne.mpr h
      have h2 : (k == a) = false := beq_eq_false_iff_ne.mpr (fun hc => h hc.symm)
      simp [List.any_cons, h1, List.lookup, h2, ih]

/-! ## RedisState lemmas -/

theorem hgetall_del_self (st : RedisState) (k : String) :
    (st.del k).hgetall k = [] := by
  simp [RedisState.del, RedisState.hgetall, lookup_filter_self]

theorem hgetall_del_ne (st : RedisState) (k k' : String) (h : k' ≠ k) :
    (st.del k).hgetall k' = st.hgetall k' := by
  simp [RedisState.del, RedisState.hgetall, lookup_filter_ne _ _ _ h]

theorem lookup_map_update (l : List (String × List (String × String)))
    (k f v : String) :
    (l.map (fun p => cond (p.1 == k) (k, setField p.2 f v) p)).lookup k
      = (l.lookup k).map (fun fields => setField fields f v) := by
  induction l with
  | nil => rfl
  | cons p rest ih =>
    obtain ⟨a, b⟩ := p
    by_cases hak : a = k
    · subst hak
      simp [List.lookup, ih]
    · have h1 : (a == k) = false := beq_eq_false_iff_ne.mpr hak
      have h2 : (k == a) = false := beq_eq_false_iff_ne.mpr
        (fun hc => hak hc.symm)
      simp [List.lookup, h1, h2, ih]

theorem lookup_map_update_ne (l : List (String × List (String × String)))
    (k k' f v : String) (h : k' ≠ k) :
    (l.map (fun p => cond (p.1 == k) (k, setField p.2 f v) p)).lookup k'
      = l.lookup k' := by
  induction l with
  | nil => rfl
  | cons p rest ih =>
    obtain ⟨a, b⟩ := p
    by_cases hak : a = k
    · subst hak
      have h2 : (k' == a) = false := beq_eq_false_iff_ne.mpr h
      simp [List.lookup, h2, ih]
    · have h1 : (a == k) = false := beq_eq_false_iff_ne.mpr hak
      by_cases hka : k' = a
      · subst hka
        simp [List.lookup, h1, ih]
      · have h2 : (k' == a) = false := beq_eq_false_iff_ne.mpr hka
        simp [List.lookup, h1, h2, ih]

theorem hgetall_hset_self (st : RedisState) (k f v : String) :
    (st.hset k f v).hgetall k = setField (st.hgetall k) f v := by
  cases ha : st.hashes.any (fun p => p.1 == k) with
  | true =>
    have h := ha
    rw [any_key_eq_lookup_isSome] at h
    rcases ho : st.hashes.lookup k with _ | fields
    · rw [ho] at h; simp at h
    · simp [RedisState.hset, ha, RedisState.hgetall, lookup_map_update, ho]
  | false =>
    have h := ha
    rw [any_key_eq_lookup_isSome] at h
    have ho : st.hashes.lookup k = none := by
      rcases hx : st.hashes.lookup k with _ | fields
      · rfl
      · rw [hx] at h; simp at h
    have hkk : (k == k) = true := beq_iff_eq.mpr rfl
    simp [RedisState.hset, ha, RedisState.hgetall, List.lookup_append, ho,
      setField, List.lookup, hkk]

theorem hgetall_hset_ne (st : RedisState) (k k' f v : String) (h : k' ≠ k) :
    (st.hset k f v).hgetall k' = st.hgetall k' := by
  cases ha : st.hashes.any (fun p => p.1 == k) with
  | true =>
    simp [RedisState.hset, ha, RedisState.hgetall,
      lookup_map_update_ne _ _ _ _ _ h]
  | false =>
    have h2 : (k' == k) = false := beq_eq_false_iff_ne.mpr h
    simp [RedisState.hset, ha, RedisState.hgetall, List.lookup_append,
      List.lookup, h2]

theorem map_fst_map_update (l : List (String × List (String × String)))
    (k f v : String) :
    (l.map (fun p => cond (p.1 == k) (k, setField p.2 f v) p)).map Prod.fst
      = l.map Prod.fst := by
  induction l with
  | nil => rfl
  | cons p rest ih =>
    obtain ⟨a, b⟩ := p
    by_cases hak : a = k
    · subst hak; simp [ih]
    · have h1 : (a == k) = false := beq_eq_false_iff_ne.mpr hak
      simp [h1, ih]

theorem any_key_hset_self (st : RedisState) (k f v : String) :
    (st.hset k f v).hashes.any (fun p => p.1 == k) = true := by
  rw [any_key_eq_lookup_isSome]
  cases ha : st.hashes.any (fun p => p.1 == k) with
  | true =>
    have hb := ha
    rw [any_key_eq_lookup_isSome] at hb
    simp only [RedisState.hset, ha, cond_true]
    rw [lookup_map_update]
    rcases ho : st.hashes.lookup k with _ | fields
    · rw [ho] at hb; simp at hb
    · simp
  | false =>
    have hkk : (k == k) = true := beq_iff_eq.mpr rfl
    have hb := ha
    rw [any_key_eq_lookup_isSome] at hb
    have ho : st.hashes.lookup k = none := by
      rcases hx : st.hashes.lookup k with _ | fields
      · rfl
      · rw [hx] at hb; simp at hb
    simp only [RedisState.hset, ha, cond_false]
    rw [List.lookup_append, ho]
    simp [List.lookup, hkk]

theorem keys_hset_not_match (st : RedisState) (k f v pat : String)
    (h : stringGlob pat k = false) :
    (st.hset k f v).keys pat = st.keys pat := by
  cases ha : st.hashes.any (fun p => p.1 == k) with
  | true =>
    simp only [RedisState.keys, RedisState.hset, ha, cond_true]
    rw [map_fst_map_update]
  | false =>
    simp only [RedisState.keys, RedisState.hset, ha, cond_false,
      List.map_append]
    simp [List.filter_append, List.filter, h]

theorem keysList_hset_fresh (st : RedisState) (k f v : String)
    (h : st.hashes.any (fun p => p.1 == k) = false) :
    (st.hset k f v).hashes.map Prod.fst = st.hashes.map Prod.fst ++ [k] := by
  simp only [RedisState.hset, h, cond_false, List.map_append]
  rfl

theorem keysList_hset_mem (st : RedisState) (k f v : String)
    (h : st.hashes.any (fun p => p.1 == k) = true) :
    (st.hset k f v).hashes.map Prod.fst = st.hashes.map Prod.fst := by
  simp only [RedisState.hset, h, cond_true]
  rw [map_fst_map_update]

theorem hgetall_hsetMapping_self (st : RedisState) (k : String)
    (m : List (String × String)) :
    (st.hsetMapping k m).hgetall k
      = m.foldl (fun acc fv => setField acc fv.1 fv.2) (st.hgetall k) := by
  induction m generalizing st with
  | nil => rfl
  | cons fv rest ih =>
    simp only [RedisState.hsetMapping, List.foldl_cons] at ih ⊢
    rw [ih, hgetall_hset_self]

theorem hgetall_hsetMapping_ne (st : RedisState) (k : String)
    (m : List (String × String)) (k' : String) (h : k' ≠ k) :
    (st.hsetMapping k m).hgetall k' = st.hgetall k' := by
  induction m generalizing st with
  | nil => rfl
  | cons fv rest ih =>
    simp only [RedisState.hsetMapping, List.foldl_cons] at ih ⊢
    rw [ih, hgetall_hset_ne _ _ _ _ _ h]

theorem keys_hsetMapping_not_match (st : RedisState) (k : String)
    (m : List (String × String)) (pat : String)
    (h : stringGlob pat k = false) :
    (st.hsetMapping k m).keys pat = st.keys pat := by
  induction m generalizing st with
  | nil => rfl
  | cons fv rest ih =>
    simp only [RedisState.hsetMapping, List.foldl_cons] at ih ⊢
    rw [ih, keys_hset_not_match _ _ _ _ _ h]

theorem keysList_hsetMapping_mem (st : RedisState) (k : String)
    (m : List (String × String))
    (h : st.hashes.any (fun p => p.1 == k) = true) :
    (st.hsetMapping k m).hashes.map Prod.fst = st.hashes.map Prod.fst := by
  induction m generalizing st with
  | nil => rfl
  | cons fv rest ih =>
    simp only [RedisState.hsetMapping, List.foldl_cons] at ih ⊢
    rw [ih _ (any_key_hset_self st k fv.1 fv.2), keysList_hset_mem _ _ _ _ h]

theorem keysList_hsetMapping_fresh (st : RedisState) (k : String)
    (m : List (String × String)) (hm : m ≠ [])
    (h : st.hashes.any (fun p => p.1 == k) = false) :
    (st.hsetMapping k m).hashes.map Prod.fst
      = st.hashes.map Prod.fst ++ [k] := by
  cases m with
  | nil => exact absurd rfl hm
  | cons fv rest =>
    simp only [RedisState.hsetMapping, List.foldl_cons]
    rw [show rest.foldl (fun s fv => s.hset k fv.1 fv.2) (st.hset k fv.1 fv.2)
        = (st.hset k fv.1 fv.2).hsetMapping k rest from rfl]
    rw [keysList_hsetMapping_mem _ _ _ (any_key_hset_self st k fv.1 fv.2),
      keysList_hset_fresh _ _ _ _ h]

theorem setField_fresh (acc : List (String × String)) (fld v : String)
    (h : acc.any (fun q => q.1 == fld) = false) :
    setField acc fld v = acc ++ [(fld, v)] := by
  simp [setField, h]

theorem foldl_setField_nodup {β : Type} (users : List (String × β))
    (f : String × β → String) (acc : List (String × String))
    (hnd : (users.map Prod.fst).Nodup)
    (hdisj : ∀ p ∈ users, acc.any (fun q => q.1 == p.1) = false) :
    users.foldl (fun a p => setField a p.1 (f p)) acc
      = acc ++ users.map (fun p => (p.1, f p)) := by
  induction users generalizing acc with
  | nil => simp
  | cons p rest ih =>
    simp only [List.map_cons, List.nodup_cons] at hnd
    have hstep : setField acc p.1 (f p) = acc ++ [(p.1, f p)] :=
      setField_fresh _ _ _ (hdisj p (List.mem_cons_self p rest))
    simp only [List.foldl_cons, hstep]
    rw [ih (acc ++ [(p.1, f p)]) hnd.2]
    · simp
    · intro r hr
      rw [List.any_append]
      have h1 : acc.any (fun q => q.1 == r.1) = false :=
        hdisj r (List.mem_cons_of_mem p hr)
      have h2 : (p.1 == r.1) = false := beq_eq_false_iff_ne.mpr
        (fun hc => hnd.1 (hc ▸ List.mem_map_of_mem Prod.fst hr))
      simp [h1, h2]

theorem hgetall_foldl_hset {β : Type} (users : List (String × β))
    (f : String × β → String) (k : String) (st : RedisState) :
    ((users.foldl (fun s p => s.hset k p.1 (f p)) st).hgetall k)
      = users.foldl (fun acc p => setField acc p.1 (f p)) (st.hgetall k) := by
  induction users generalizing st with
  | nil => rfl
  | cons p rest ih =>
    simp only [List.foldl_cons]
    rw [ih, hgetall_hset_self]

theorem filter_ne_map_update (l : List (String × List (String × String)))
    (k f v : String) :
    (l.map (fun p => cond (p.1 == k) (k, setField p.2 f v) p)).filter
        (fun p => p.1 != k)
      = l.filter (fun p => p.1 != k) := by
  induction l with
  | nil => rfl
  | cons p rest ih =>
    obtain ⟨a, b⟩ := p
    by_cases hak : a = k
    · subst hak; simp [ih]
    · have h1 : (a == k) = false := beq_eq_false_iff_ne.mpr hak
      have h2 : ((a, b).1 != k) = true := by simp [bne, h1]
      simp [h1, h2, ih]

theorem del_hset (st : RedisState) (k f v : String) :
    (st.hset k f v).del k = st.del k := by
  cases ha : st.hashes.any (fun p => p.1 == k) with
  | true =>
    simp only [RedisState.hset, ha, cond_true, RedisState.del]
    rw [filter_ne_map_update]
  | false =>
    simp only [RedisState.hset, ha, cond_false, RedisState.del]
    congr 1
    rw [List.filter_append]
    simp

theorem del_del (st : RedisState) (k : String) :
    (st.del k).del k = st.del k := by
  simp [RedisState.del, List.filter_filter]

theorem del_foldl_hset {β : Type} (users : List (String × β))
    (f : String × β → String) (k : String) (st : RedisState) :
    ((users.foldl (fun s p => s.hset k p.1 (f p)) st).del k) = st.del k := by
  induction users generalizing st with
  | nil => rfl
  | cons p rest ih =>
    simp only [List.foldl_cons]
    rw [ih, del_hset]

/-! ## Restriction lemmas (for prior-state independence of seeding) -/

theorem filter_of_filter_not {α : Type} (P Q : α → Bool) (l : List α) :
    ((l.filter (fun a => !(P a))).filter Q).filter P = [] := by
  induction l with
  | nil => rfl
  | cons x xs ih =>
    cases hP : P x with
    | true =>
      rw [List.filter_cons, if_neg (by simp [hP])]
      exact ih
    | false =>
      rw [List.filter_cons, if_pos (by simp [hP])]
      cases hQ : Q x with
      | true =>
        rw [List.filter_cons, if_pos hQ, List.filter_cons,
          if_neg (by simp [hP])]
        exact ih
      | false =>
        rw [List.filter_cons, if_neg (by simp [hQ])]
        exact ih

theorem restrict_cleared (st : RedisState) (pat pat2 : String) :
    ((st.delPattern pat).delPattern pat2).restrict pat = [] := by
  simpa [RedisState.delPattern, RedisState.restrict] using
    filter_of_filter_not (fun p => stringGlob pat p.1)
      (fun p => !stringGlob pat2 p.1) st.hashes

theorem any_key_restrict (l : List (String × List (String × String)))
    (k pat : String) (h : stringGlob pat k = true) :
    (l.filter (fun p => stringGlob pat p.1)).any (fun p => p.1 == k)
      = l.any (fun p => p.1 == k) := by
  induction l with
  | nil => rfl
  | cons p rest ih =>
    obtain ⟨a, b⟩ := p
    by_cases hak : a = k
    · subst hak; simp [h, ih]
    · have h1 : (a == k) = false := beq_eq_false_iff_ne.mpr hak
      cases hg : stringGlob pat a with
      | true => simp [hg, h1, ih]
      | false => simp [hg, h1, ih]

theorem filter_map_update_comm (l : List (String × List (String × String)))
    (k f v pat : String) (h : stringGlob pat k = true) :
    (l.map (fun p => cond (p.1 == k) (k, setField p.2 f v) p)).filter
        (fun p => stringGlob pat p.1)
      = (l.filter (fun p => stringGlob pat p.1)).map
          (fun p => cond (p.1 == k) (k, setField p.2 f v) p) := by
  induction l with
  | nil => rfl
  | cons p rest ih =>
    obtain ⟨a, b⟩ := p
    by_cases hak : a = k
    · subst hak; simp [h, ih]
    · have h1 : (a == k) = false := beq_eq_false_iff_ne.mpr hak
      cases hg : stringGlob pat a with
      | true => simp [hg, h1, ih]
      | false => simp [hg, h1, ih]

theorem filter_map_update_not (l : List (String × List (String × String)))
    (k f v pat : String) (h : stringGlob pat k = false) :
    (l.map (fun p => cond (p.1 == k) (k, setField p.2 f v) p)).filter
        (fun p => stringGlob pat p.1)
      = l.filter (fun p => stringGlob pat p.1) := by
  induction l with
  | nil => rfl
  | cons p rest ih =>
    obtain ⟨a, b⟩ := p
    by_cases hak : a = k
    · subst hak; simp [h, ih]
    · have h1 : (a == k) = false := beq_eq_false_iff_ne.mpr hak
      cases hg : stringGlob pat a with
      | true => simp [hg, h1, ih]
      | false => simp [hg, h1, ih]

theorem hset_any_true (st : RedisState) (k f v : String)
    (ha : st.hashes.any (fun p => p.1 == k) = true) :
    st.hset k f v
      = ⟨st.hashes.map (fun p => cond (p.1 == k) (k, setField p.2 f v) p)⟩ := by
  simp [RedisState.hset, ha]

theorem hset_any_false (st : RedisState) (k f v : String)
    (ha : st.hashes.any (fun p => p.1 == k) = false) :
    st.hset k f v = ⟨st.hashes ++ [(k, [(f, v)])]⟩ := by
  simp [RedisState.hset, ha]

theorem restrict_hset_match (st : RedisState) (k f v pat : String)
    (h : stringGlob pat k = true) :
    (st.hset k f v).restrict pat
      = (RedisState.hset ⟨st.restrict pat⟩ k f v).hashes := by
  have hany : (RedisState.mk (st.restrict pat)).hashes.any
      (fun p => p.1 == k) = st.hashes.any (fun p => p.1 == k) := by
    show (st.hashes.filter (fun p => stringGlob pat p.1)).any
        (fun p => p.1 == k) = _
    exact any_key_restrict _ _ _ h
  cases ha : st.hashes.any (fun p => p.1 == k) with
  | true =>
    rw [ha] at hany
    rw [hset_any_true _ _ _ _ ha, hset_any_true _ _ _ _ hany]
    exact filter_map_update_comm _ _ _ _ _ h
  | false =>
    rw [ha] at hany
    rw [hset_any_false _ _ _ _ ha, hset_any_false _ _ _ _ hany]
    show (st.hashes ++ [(k, [(f, v)])]).filter (fun p => stringGlob pat p.1)
      = st.restrict pat ++ [(k, [(f, v)])]
    rw [List.filter_append, List.filter_cons, if_pos (by simpa using h)]
    rfl

theorem restrict_hset_congr (st st' : RedisState) (k f v pat : String)
    (h : stringGlob pat k = true)
    (heq : st.restrict pat = st'.restrict pat) :
    (st.hset k f v).restrict pat = (st'.hset k f v).restrict pat := by
  rw [restrict_hset_match _ _ _ _ _ h, restrict_hset_match _ _ _ _ _ h, heq]

theorem restrict_hsetMapping_congr (st st' : RedisState) (k : String)
    (m : List (String × String)) (pat : String)
    (h : stringGlob pat k = true)
    (heq : st.restrict pat = st'.restrict pat) :
    (st.hsetMapping k m).restrict pat = (st'.hsetMapping k m).restrict pat := by
  induction m generalizing st st' with
  | nil => exact heq
  | cons fv rest ih =>
    simp only [RedisState.hsetMapping, List.foldl_cons] at ih ⊢
    exact ih _ _ (restrict_hset_congr _ _ _ _ _ _ h heq)

/-! ## Pattern facts about the key namespaces -/

theorem toList_append (s t : String) :
    (s ++ t).toList = s.toList ++ t.toList := by
  simp [String.toList, String.data_append]

theorem stringGlob_lit_star (lit rest : String)
    (hstar : '*' ∉ lit.toList) :
    stringGlob (lit ++ "*") (lit ++ rest) = true := by
  unfold stringGlob
  rw [toList_append, toList_append,
    show ("*" : String).toList = ['*'] from rfl,
    globMatch_lit_extend _ _ _ hstar, globMatch_star_any]

theorem upPattern_matches_key (user id : String) :
    stringGlob upPattern
      ("cool-vibes-agent:UserPref:" ++ user ++ ":" ++ id) = true := by
  have h1 : "cool-vibes-agent:UserPref:" ++ user ++ ":" ++ id
      = "cool-vibes-agent:UserPref:" ++ (user ++ ":" ++ id) := by
    simp [String.append_assoc]
  rw [h1, show upPattern = "cool-vibes-agent:UserPref:" ++ "*" from rfl]
  exact stringGlob_lit_star _ _ (by decide)

theorem userPref_context_disjoint (u user d : String) :
    stringGlob (userPrefPattern u) (contextKey user d) = false := by
  have hp : userPrefPattern u
      = "cool-vibes-agent:" ++ ("UserPref:" ++ u ++ ":*") := by
    rw [← String.append_assoc, ← String.append_assoc]
    rfl
  have hs : contextKey user d
      = "cool-vibes-agent-" ++ ("vnext:Context:" ++ user ++ ":" ++ d) := by
    rw [← String.append_assoc, ← String.append_assoc, ← String.append_assoc]
    rfl
  rw [hp, hs]
  unfold stringGlob
  rw [toList_append, toList_append]
  exact globMatch_lit_ne _ _ _ _ (by decide) (by decide) (by decide)
    (by decide)

/-! ## Characterization of the per-key insight entry -/

theorem prefEntry_eq (st : RedisState) (key : String) :
    prefEntry st key
      = match (st.hgetall key).lookup "preference_text" with
        | none => none
        | some text =>
          some [("insight", text),
                ("source", ((st.hgetall key).lookup "source").getD "unknown"),
                ("timestamp",
                  ((st.hgetall key).lookup "timestamp").getD "")] := by
  have hpt := fun (l : List (String × String)) =>
    lookup_filter_ne l "preference_text" "embedding" (by decide)
  have hsrc := fun (l : List (String × String)) =>
    lookup_filter_ne l "source" "embedding" (by decide)
  have hts := fun (l : List (String × String)) =>
    lookup_filter_ne l "timestamp" "embedding" (by decide)
  cases hE : (st.hgetall key).isEmpty with
  | true =>
    have h0 : st.hgetall key = [] := List.isEmpty_iff.mp hE
    simp [prefEntry, hE, h0]
  | false =>
    simp only [prefEntry, hE, cond_false]
    rw [hpt, hsrc, hts]

theorem length_filterMap_eq {α β : Type} (f : α → Option β) (l : List α) :
    (l.filterMap f).length = (l.filter (fun a => (f a).isSome)).length := by
  induction l with
  | nil => rfl
  | cons x xs ih => cases hx : f x <;> simp [hx, ih]

/-! ## Claim theorems -/

/-- C7: for every city string whose lowercase form is not a key of the
static EVENTS_DATA dictionary, the mock-events lookup returns an empty
list of events (direct dictionary access, no fuzzy matching). -/
theorem C7_unknown_city_empty (city : String)
    (h : EVENTS_DATA.lookup (pyLower city) = none) :
    find_events city = [] := by
  unfold find_events
  rw [h]

/-- Witness for C7 at the concrete unknown city Atlantis. -/
theorem C7_unknown_city_empty_witness :
    EVENTS_DATA.lookup (pyLower "Atlantis") = none ∧
      find_events "Atlantis" = [] :=
  ⟨by decide, C7_unknown_city_empty "Atlantis" (by decide)⟩

/-- C8: every top-level key of EVENTS_DATA is lowercase, every event
record under a key has exactly the fields id, sport, teams, venue, date,
time and city, and the lowercased city field of each record equals the
key it is stored under. -/
theorem C8_events_data_invariant :
    EVENTS_DATA.all (fun ce =>
      (pyLower ce.1 == ce.1) &&
      ce.2.all (fun e =>
        (e.map Prod.fst
          == ["id", "sport", "teams", "venue", "date", "time", "city"]) &&
        ((e.lookup "city").map pyLower == some ce.1))) = true := by
  decide

/-- C10: every entry returned by get_user_preferences has exactly the
keys insight, source and timestamp (never embedding); each entry comes
from a scanned record holding a preference_text field, with source
defaulting to unknown and timestamp to the empty string; and records
without preference_text are omitted entirely (the output length counts
exactly the scanned keys whose record has preference_text). -/
theorem C10_output_shape (st : RedisState) (user : String) :
    (∀ e ∈ get_user_preferences st user,
      e.map Prod.fst = ["insight", "source", "timestamp"]) ∧
    (∀ e ∈ get_user_preferences st user, ∃ key,
      key ∈ st.keys (userPrefPattern user) ∧
      ∃ text, (st.hgetall key).lookup "preference_text" = some text ∧
        e = [("insight", text),
             ("source", ((st.hgetall key).lookup "source").getD "unknown"),
             ("timestamp",
               ((st.hgetall key).lookup "timestamp").getD "")]) ∧
    (get_user_preferences st user).length =
      ((st.keys (userPrefPattern user)).filter
        (fun k => ((st.hgetall k).lookup "preference_text").isSome)).length
    := by
  refine ⟨?_, ?_, ?_⟩
  · intro e he
    rw [get_user_preferences, List.mem_filterMap] at he
    obtain ⟨key, _, hf⟩ := he
    rw [prefEntry_eq] at hf
    rcases hL : (st.hgetall key).lookup "preference_text" with _ | text
    · rw [hL] at hf; simp at hf
    · rw [hL] at hf
      simp only [Option.some_inj] at hf
      rw [← hf]
      rfl
  · intro e he
    rw [get_user_preferences, List.mem_filterMap] at he
    obtain ⟨key, hkey, hf⟩ := he
    rw [prefEntry_eq] at hf
    rcases hL : (st.hgetall key).lookup "preference_text" with _ | text
    · rw [hL] at hf; simp at hf
    · rw [hL] at hf
      simp only [Option.some_inj] at hf
      exact ⟨key, hkey, text, hL, hf.symm⟩
  · rw [get_user_preferences, length_filterMap_eq]
    congr 1
    apply List.filter_congr
    intro k _
    rw [prefEntry_eq]
    rcases hL : (st.hgetall k).lookup "preference_text" with _ | text <;>
      simp [hL]

/-! ## Helper lemmas about the seeding paths -/

theorem seed_success_eq (doc : Json) (fields users : List (String × Json))
    (st : RedisState)
    (hdoc : doc.getObj = some fields)
    (hum : fields.lookup "user_memories" = some (.obj users))
    (hne : users ≠ []) :
    seed_user_preferences (.parsed doc) st
      = (true, users.foldl (fun s p => s.hset preferencesKey p.1 p.2.dumps)
          (st.del preferencesKey)) := by
  have hie : users.isEmpty = false := by
    cases users with
    | nil => exact absurd rfl hne
    | cons a l => rfl
  simp [seed_user_preferences, hdoc, hum, Json.truthy, hie]

theorem seedInsights_pair (env : VecEnv) (user : String) (items : List Json)
    (st st' : RedisState) (n : Nat)
    (heq : st.restrict upPattern = st'.restrict upPattern) :
    (seedInsights env user items (st, n)).2
        = (seedInsights env user items (st', n)).2 ∧
    (seedInsights env user items (st, n)).1.restrict upPattern
        = (seedInsights env user items (st', n)).1.restrict upPattern := by
  induction items generalizing st st' n with
  | nil => exact ⟨rfl, heq⟩
  | cons item rest ih =>
    cases hobj : item.getObj with
    | none =>
      simp only [seedInsights, hobj]
      exact ⟨trivial, heq⟩
    | some fs =>
      simp only [seedInsights, hobj]
      cases htr : ((fs.lookup "insight").getD (.str "")).truthy with
      | false =>
        simp only [htr, cond_false]
        exact ih st st' n heq
      | true =>
        simp only [htr, cond_true]
        apply ih
        apply restrict_hsetMapping_congr
        · exact upPattern_matches_key user (env.ids n)
        · exact heq

theorem usersFold_pair (env : VecEnv) (users : List (String × Json))
    (a a' : RedisState × Nat)
    (hn : a.2 = a'.2)
    (heq : a.1.restrict upPattern = a'.1.restrict upPattern) :
    (users.foldl (fun acc p => match p.2 with
        | .arr items => seedInsights env p.1 items acc
        | _ => acc) a).1.restrict upPattern
      = (users.foldl (fun acc p => match p.2 with
          | .arr items => seedInsights env p.1 items acc
          | _ => acc) a').1.restrict upPattern := by
  induction users generalizing a a' with
  | nil => exact heq
  | cons p rest ih =>
    obtain ⟨st, n⟩ := a
    obtain ⟨st', n'⟩ := a'
    simp only at hn
    subst hn
    simp only [List.foldl_cons]
    cases hp : p.2 with
    | arr items =>
      have hstep := seedInsights_pair env p.1 items st st' n heq
      apply ih
      · exact hstep.1
      · exact hstep.2
    | null => exact ih _ _ rfl heq
    | bool b => exact ih _ _ rfl heq
    | num m => exact ih _ _ rfl heq
    | str s => exact ih _ _ rfl heq
    | obj fs => exact ih _ _ rfl heq

/-- C1: for every seed file that exists, parses, and contains a
non-empty user_memories mapping, seed_user_preferences returns True and
afterwards the field set of the cool-vibes-agent:Preferences hash equals
exactly the user names in user_memories, each field holding the JSON
serialization of the insight list of that user. -/
theorem C1_seed_populates_users (doc : Json) (fields : List (String × Json))
    (users : List (String × Json)) (st : RedisState)
    (hdoc : doc.getObj = some fields)
    (hum : fields.lookup "user_memories" = some (.obj users))
    (hne : users ≠ [])
    (hnd : (users.map Prod.fst).Nodup) :
    (seed_user_preferences (.parsed doc) st).1 = true ∧
    (seed_user_preferences (.parsed doc) st).2.hgetall preferencesKey
      = users.map (fun p => (p.1, p.2.dumps)) ∧
    (seed_user_preferences (.parsed doc) st).2.hkeys preferencesKey
      = users.map Prod.fst := by
  have hie : users.isEmpty = false := by
    cases users with
    | nil => exact absurd rfl hne
    | cons a l => rfl
  have htr : (Json.obj users).truthy = true := by
    simp [Json.truthy, hie]
  have hseed : seed_user_preferences (.parsed doc) st
      = (true, users.foldl (fun s p => s.hset preferencesKey p.1 p.2.dumps)
          (st.del preferencesKey)) := by
    simp [seed_user_preferences, hdoc, hum, htr]
  have hget : (seed_user_preferences (.parsed doc) st).2.hgetall
      preferencesKey = users.map (fun p => (p.1, p.2.dumps)) := by
    rw [hseed]
    show ((users.foldl (fun s p => s.hset preferencesKey p.1 p.2.dumps)
        (st.del preferencesKey)).hgetall preferencesKey) = _
    rw [hgetall_foldl_hset users (fun p => p.2.dumps) preferencesKey
      (st.del preferencesKey), hgetall_del_self]
    rw [foldl_setField_nodup users (fun p => p.2.dumps) [] hnd
      (fun p _ => rfl)]
    rfl
  refine ⟨by rw [hseed], hget, ?_⟩
  show ((seed_user_preferences (.parsed doc) st).2.hgetall
      preferencesKey).map Prod.fst = _
  rw [hget, List.map_map]
  rfl

/-- Witness for C1: a one-user seed document run against a state already
holding an old preferences hash. -/
theorem C1_seed_populates_users_witness :
    (seed_user_preferences (.parsed (Json.obj [("user_memories",
        Json.obj [("Mark", Json.arr [Json.str "likes jazz"])])]))
      ⟨[("cool-vibes-agent:Preferences", [("Old", "x")])]⟩).1 = true ∧
    (seed_user_preferences (.parsed (Json.obj [("user_memories",
        Json.obj [("Mark", Json.arr [Json.str "likes jazz"])])]))
      ⟨[("cool-vibes-agent:Preferences", [("Old", "x")])]⟩).2.hgetall
        preferencesKey
      = [("Mark", (Json.arr [Json.str "likes jazz"]).dumps)] ∧
    (seed_user_preferences (.parsed (Json.obj [("user_memories",
        Json.obj [("Mark", Json.arr [Json.str "likes jazz"])])]))
      ⟨[("cool-vibes-agent:Preferences", [("Old", "x")])]⟩).2.hkeys
        preferencesKey
      = ["Mark"] :=
  C1_seed_populates_users
    (Json.obj [("user_memories",
      Json.obj [("Mark", Json.arr [Json.str "likes jazz"])])])
    [("user_memories", Json.obj [("Mark", Json.arr [Json.str "likes jazz"])])]
    [("Mark", Json.arr [Json.str "likes jazz"])]
    ⟨[("cool-vibes-agent:Preferences", [("Old", "x")])]⟩
    rfl rfl (by simp) (by simp)

/-- C5: when the seed file is missing, is not valid JSON, or parses with
a missing or empty user_memories mapping, seed_user_preferences returns
False and leaves the Redis state untouched (in particular the existing
preferences key is not deleted). -/
theorem C5_failure_leaves_state (file : SeedFile) (st : RedisState)
    (h : file = .missing ∨ file = .invalid ∨
      ∃ doc fields, file = .parsed doc ∧ doc.getObj = some fields ∧
        (fields.lookup "user_memories" = none ∨
         fields.lookup "user_memories" = some (.obj []))) :
    seed_user_preferences file st = (false, st) := by
  rcases h with h | h | ⟨doc, fields, hf, hdoc, hum⟩
  · subst h; rfl
  · subst h; rfl
  · subst hf
    rcases hum with hum | hum
    · simp [seed_user_preferences, hdoc, hum, Json.truthy]
    · simp [seed_user_preferences, hdoc, hum, Json.truthy]

/-- Witness for C5: a missing seed file against a state with an existing
preferences hash. -/
theorem C5_failure_leaves_state_witness :
    seed_user_preferences .missing
        ⟨[("cool-vibes-agent:Preferences", [("Mark", "old")])]⟩
      = (false, ⟨[("cool-vibes-agent:Preferences", [("Mark", "old")])]⟩) :=
  C5_failure_leaves_state .missing _ (Or.inl rfl)

/-- C2: seeding clears the previously stored preference data before
writing, so the post-seeding preference state depends only on the seed
file and not on the prior Redis state, and running seeding twice in a
row with the same seed file leaves the same final state as running it
once. Conjunct one: seed_user_preferences is idempotent on the full
state. Conjunct two: whenever records are written, the final content of
the preferences hash does not depend on the prior state. Conjunct three:
the UserPref portion of the state after the vector seeding path is
independent of the prior state for every seed file (its bulk deletes run
before the writes). -/
theorem C2_seed_reset :
    (∀ (file : SeedFile) (st : RedisState),
      seed_user_preferences file (seed_user_preferences file st).2
        = seed_user_preferences file st) ∧
    (∀ (doc : Json) (fields users : List (String × Json))
        (st st' : RedisState),
      doc.getObj = some fields →
      fields.lookup "user_memories" = some (.obj users) →
      users ≠ [] →
      (seed_user_preferences (.parsed doc) st).2.hgetall preferencesKey
        = (seed_user_preferences (.parsed doc) st').2.hgetall
            preferencesKey) ∧
    (∀ (file : SeedFile) (env : VecEnv) (st st' : RedisState),
      (seed_user_preferences_with_vectors file env st).2.restrict upPattern
        = (seed_user_preferences_with_vectors file env st').2.restrict
            upPattern) := by
  have hcl : ∀ (s s' : RedisState),
      ((s.delPattern upPattern).delPattern convPattern).restrict upPattern
        = ((s'.delPattern upPattern).delPattern convPattern).restrict
            upPattern := by
    intro s s'
    rw [restrict_cleared, restrict_cleared]
  refine ⟨?_, ?_, ?_⟩
  · intro file st
    cases file with
    | missing => rfl
    | invalid => rfl
    | parsed doc =>
      cases hdoc : doc.getObj with
      | none => simp [seed_user_preferences, hdoc]
      | some fields =>
        cases hum : fields.lookup "user_memories" with
        | none => simp [seed_user_preferences, hdoc, hum, Json.truthy]
        | some um =>
          cases htr : um.truthy with
          | false => simp [seed_user_preferences, hdoc, hum, htr]
          | true =>
            cases um with
            | null => simp [Json.truthy] at htr
            | bool b =>
              simp [seed_user_preferences, hdoc, hum, htr, del_del]
            | num n =>
              simp [seed_user_preferences, hdoc, hum, htr, del_del]
            | str s =>
              simp [seed_user_preferences, hdoc, hum, htr, del_del]
            | arr xs =>
              simp [seed_user_preferences, hdoc, hum, htr, del_del]
            | obj users =>
              have hne : users ≠ [] := by
                intro hnil
                subst hnil
                simp [Json.truthy] at htr
              rw [seed_success_eq doc fields users st hdoc hum hne]
              show seed_user_preferences (.parsed doc)
                  (users.foldl (fun s p =>
                    s.hset preferencesKey p.1 p.2.dumps)
                    (st.del preferencesKey)) = _
              rw [seed_success_eq doc fields users _ hdoc hum hne]
              rw [del_foldl_hset, del_del]
  · intro doc fields users st st' hdoc hum hne
    rw [seed_success_eq doc fields users st hdoc hum hne,
      seed_success_eq doc fields users st' hdoc hum hne]
    show ((users.foldl (fun s p => s.hset preferencesKey p.1 p.2.dumps)
        (st.del preferencesKey)).hgetall preferencesKey) = _
    rw [hgetall_foldl_hset users (fun p => p.2.dumps) preferencesKey,
      hgetall_foldl_hset users (fun p => p.2.dumps) preferencesKey,
      hgetall_del_self, hgetall_del_self]
  · intro file env st st'
    cases file with
    | missing => exact hcl st st'
    | invalid => exact hcl st st'
    | parsed doc =>
      cases hdoc : doc.getObj with
      | none =>
        simp only [seed_user_preferences_with_vectors, hdoc]
        exact hcl st st'
      | some fields =>
        cases hum : fields.lookup "user_memories" with
        | none =>
          simp only [seed_user_preferences_with_vectors, hdoc, hum,
            Option.getD_none, Json.truthy, List.isEmpty_nil, Bool.not_true,
            cond_false]
          exact hcl st st'
        | some um =>
          cases htr : um.truthy with
          | false =>
            simp only [seed_user_preferences_with_vectors, hdoc, hum,
              Option.getD_some, htr, cond_false]
            exact hcl st st'
          | true =>
            cases um with
            | null => simp [Json.truthy] at htr
            | bool b =>
              simp only [seed_user_preferences_with_vectors, hdoc, hum,
                Option.getD_some, htr, cond_true]
              exact hcl st st'
            | num n =>
              simp only [seed_user_preferences_with_vectors, hdoc, hum,
                Option.getD_some, htr, cond_true]
              exact hcl st st'
            | str s =>
              simp only [seed_user_preferences_with_vectors, hdoc, hum,
                Option.getD_some, htr, cond_true]
              exact hcl st st'
            | arr xs =>
              simp only [seed_user_preferences_with_vectors, hdoc, hum,
                Option.getD_some, htr, cond_true]
              exact hcl st st'
            | obj users =>
              simp only [seed_user_preferences_with_vectors, hdoc, hum,
                Option.getD_some, htr, cond_true]
              exact usersFold_pair env users _ _ rfl (hcl st st')

/-- Witness for C2 at concrete seed documents, environments and states:
reseeding a missing file twice, seeding one user over two different
prior states, and vector-seeding over two different prior states. -/
theorem C2_seed_reset_witness :
    (seed_user_preferences .missing
        (seed_user_preferences .missing ⟨[("k", [("f", "v")])]⟩).2
      = seed_user_preferences .missing ⟨[("k", [("f", "v")])]⟩) ∧
    ((seed_user_preferences (.parsed (Json.obj [("user_memories",
        Json.obj [("Shruti", Json.arr [Json.str "enjoys hiking"])])]))
        ⟨[]⟩).2.hgetall preferencesKey
      = (seed_user_preferences (.parsed (Json.obj [("user_memories",
          Json.obj [("Shruti", Json.arr [Json.str "enjoys hiking"])])]))
          ⟨[("cool-vibes-agent:Preferences", [("Zed", "9")])]⟩).2.hgetall
            preferencesKey) ∧
    ((seed_user_preferences_with_vectors .missing
        ⟨fun n => toString n, fun s => s, "t0"⟩ ⟨[]⟩).2.restrict upPattern
      = (seed_user_preferences_with_vectors .missing
          ⟨fun n => toString n, fun s => s, "t0"⟩
          ⟨[("cool-vibes-agent:UserPref:Old:1",
             [("preference_text", "x")])]⟩).2.restrict upPattern) :=
  ⟨C2_seed_reset.1 .missing ⟨[("k", [("f", "v")])]⟩,
   C2_seed_reset.2.1
     (Json.obj [("user_memories",
       Json.obj [("Shruti", Json.arr [Json.str "enjoys hiking"])])])
     [("user_memories",
       Json.obj [("Shruti", Json.arr [Json.str "enjoys hiking"])])]
     [("Shruti", Json.arr [Json.str "enjoys hiking"])]
     ⟨[]⟩ ⟨[("cool-vibes-agent:Preferences", [("Zed", "9")])]⟩
     rfl rfl (by simp),
   C2_seed_reset.2.2 .missing ⟨fun n => toString n, fun s => s, "t0"⟩
     ⟨[]⟩ ⟨[("cool-vibes-agent:UserPref:Old:1",
             [("preference_text", "x")])]⟩⟩

/-- C3 counterexample: at a concrete successful call, remember_preference
writes exactly one key, that key is in the cool-vibes-agent-vnext:Context
namespace (no key matching cool-vibes-agent:UserPref:* exists afterwards),
and its field set is not the claimed preference_text, source, timestamp,
embedding. -/
theorem C3_counterexample :
    ((remember_preference ⟨true, true, .ok "EMB", none, "abcd1234", "t0"⟩
        "Mark" "likes jazz" ⟨[]⟩).2.hashes.map Prod.fst
      = ["cool-vibes-agent-vnext:Context:Mark:abcd1234"]) ∧
    ((remember_preference ⟨true, true, .ok "EMB", none, "abcd1234", "t0"⟩
        "Mark" "likes jazz" ⟨[]⟩).2.keys "cool-vibes-agent:UserPref:*"
      = []) ∧
    (((remember_preference ⟨true, true, .ok "EMB", none, "abcd1234", "t0"⟩
        "Mark" "likes jazz" ⟨[]⟩).2.hgetall
        "cool-vibes-agent-vnext:Context:Mark:abcd1234").map Prod.fst
      ≠ ["preference_text", "source", "timestamp", "embedding"]) := by
  refine ⟨by decide, by decide, by decide⟩

set_option maxHeartbeats 1000000 in
/-- C3 amended: every record written by a successful remember_preference
call is stored under the key cool-vibes-agent-vnext:Context:user:id, as
a Redis hash whose fields are content, role, mime_type, user_id,
application_id, agent_id, embedding, timestamp and source. -/
theorem C3_amended_context_record (env : RememberEnv)
    (user pref emb : String) (st : RedisState)
    (hc : env.clientAvailable = true) (hv : env.vectorizerAvailable = true)
    (hemb : env.embed = .ok emb) (hfault : env.hsetFault = none)
    (hfresh : st.hashes.any
      (fun p => p.1 == contextKey user env.docId) = false) :
    (remember_preference env user pref st).2.hashes.map Prod.fst
      = st.hashes.map Prod.fst ++ [contextKey user env.docId] ∧
    (remember_preference env user pref st).2.hgetall
        (contextKey user env.docId)
      = rememberFields user pref emb env.now ∧
    ((remember_preference env user pref st).2.hgetall
        (contextKey user env.docId)).map Prod.fst
      = ["content", "role", "mime_type", "user_id", "application_id",
         "agent_id", "embedding", "timestamp", "source"] := by
  have hrem : remember_preference env user pref st
      = (("✅ I\x27ll remember that " ++ user ++ " " ++ pref),
         st.hsetMapping (contextKey user env.docId)
           (rememberFields user pref emb env.now)) := by
    simp [remember_preference, hc, hv, hemb, hfault]
  have h1 : st.hashes.lookup (contextKey user env.docId) = none := by
    have h2 := hfresh
    rw [any_key_eq_lookup_isSome] at h2
    exact Option.not_isSome_iff_eq_none.mp (by simp [h2])
  have h0 : st.hgetall (contextKey user env.docId) = [] := by
    simp [RedisState.hgetall, h1]
  have hget : (remember_preference env user pref st).2.hgetall
      (contextKey user env.docId)
      = rememberFields user pref emb env.now := by
    rw [hrem]
    show ((st.hsetMapping (contextKey user env.docId)
        (rememberFields user pref emb env.now)).hgetall
        (contextKey user env.docId)) = _
    rw [hgetall_hsetMapping_self, h0]
    have hnd : ((rememberFields user pref emb env.now).map Prod.fst).Nodup := by
      show (["content", "role", "mime_type", "user_id", "application_id",
        "agent_id", "embedding", "timestamp", "source"] : List String).Nodup
      decide
    rw [foldl_setField_nodup (rememberFields user pref emb env.now)
      (fun p => p.2) [] hnd (fun p _ => rfl)]
    simp
  refine ⟨?_, hget, ?_⟩
  · rw [hrem]
    show ((st.hsetMapping (contextKey user env.docId)
        (rememberFields user pref emb env.now)).hashes.map Prod.fst) = _
    rw [keysList_hsetMapping_fresh _ _ _ (by simp [rememberFields]) hfresh]
  · rw [hget]
    rfl

/-- Witness for the amended C3 at a concrete successful call on an empty
store. -/
theorem C3_amended_context_record_witness :
    (remember_preference ⟨true, true, .ok "EMB2", none, "beef0001", "t1"⟩
        "Priya" "prefers window seats" ⟨[]⟩).2.hashes.map Prod.fst
      = [contextKey "Priya" "beef0001"] ∧
    (remember_preference ⟨true, true, .ok "EMB2", none, "beef0001", "t1"⟩
        "Priya" "prefers window seats" ⟨[]⟩).2.hgetall
        (contextKey "Priya" "beef0001")
      = rememberFields "Priya" "prefers window seats" "EMB2" "t1" ∧
    ((remember_preference ⟨true, true, .ok "EMB2", none, "beef0001", "t1"⟩
        "Priya" "prefers window seats" ⟨[]⟩).2.hgetall
        (contextKey "Priya" "beef0001")).map Prod.fst
      = ["content", "role", "mime_type", "user_id", "application_id",
         "agent_id", "embedding", "timestamp", "source"] :=
  C3_amended_context_record
    ⟨true, true, .ok "EMB2", none, "beef0001", "t1"⟩
    "Priya" "prefers window seats" "EMB2" ⟨[]⟩ rfl rfl rfl rfl rfl

theorem gup_hsetMapping_context (st : RedisState)
    (user docId u : String) (m : List (String × String)) :
    get_user_preferences
        (st.hsetMapping (contextKey user docId) m) u
      = get_user_preferences st u := by
  have hglob : stringGlob (userPrefPattern u) (contextKey user docId)
      = false := userPref_context_disjoint u user docId
  unfold get_user_preferences
  rw [keys_hsetMapping_not_match _ _ _ _ hglob]
  apply List.filterMap_congr
  intro k hk
  have hkglob : stringGlob (userPrefPattern u) k = true := by
    rw [RedisState.keys] at hk
    exact (List.mem_filter.mp hk).2
  have hne : k ≠ contextKey user docId := by
    intro hkc
    rw [hkc, hglob] at hkglob
    exact Bool.false_ne_true hkglob
  simp only [prefEntry, hgetall_hsetMapping_ne _ _ _ _ hne]

theorem remember_state_cases (env : RememberEnv) (user pref : String)
    (st : RedisState) :
    (remember_preference env user pref st).2 = st ∨
    ∃ emb, env.embed = .ok emb ∧
      (remember_preference env user pref st).2
        = st.hsetMapping (contextKey user env.docId)
            (rememberFields user pref emb env.now) := by
  cases hcv : (!env.clientAvailable || !env.vectorizerAvailable) with
  | true => left; simp [remember_preference, hcv]
  | false =>
    rcases hemb : env.embed with e | emb
    · left; simp [remember_preference, hcv, hemb]
    · rcases hf : env.hsetFault with _ | e
      · right
        exact ⟨emb, rfl, by simp [remember_preference, hcv, hemb, hf]⟩
      · left; simp [remember_preference, hcv, hemb, hf]

/-- C4: a preference stored by remember_preference (written under a
cool-vibes-agent-vnext:Context key with a content field) is never
included in the result of a subsequent get_user_preferences call, which
scans only cool-vibes-agent:UserPref keys: the write and read key
namespaces are disjoint, so the get_user_preferences output (for any
queried user) is unchanged by the write. -/
theorem C4_write_read_namespaces_disjoint (env : RememberEnv)
    (user pref u : String) (st : RedisState) :
    get_user_preferences (remember_preference env user pref st).2 u
      = get_user_preferences st u := by
  rcases remember_state_cases env user pref st with h | ⟨emb, _, h⟩
  · rw [h]
  · rw [h]
    exact gup_hsetMapping_context st user env.docId u
      (rememberFields user pref emb env.now)

theorem simDescending_trans : ∀ (a b c : SearchResult),
    simDescending a b = true → simDescending b c = true →
    simDescending a c = true := by
  intro a b c hab hbc
  simp only [simDescending, decide_eq_true_eq] at hab hbc ⊢
  exact le_trans hbc hab

theorem simDescending_total : ∀ (a b : SearchResult),
    (simDescending a b || simDescending b a) = true := by
  intro a b
  simp only [simDescending, Bool.or_eq_true, decide_eq_true_eq]
  exact le_total b.similarity a.similarity

/-- C9: when the semantic search succeeds it scans every stored Context
record of the user (the candidate rows are exactly the scanned hashes
having both an embedding and a content field) and returns at most five
rows in non-increasing similarity order: the returned list is the
5-element prefix of a sorted permutation of the candidates, its length
is the minimum of five and the number of candidates, and every returned
row is a candidate. The cosine similarity itself is an arbitrary
rational-valued scoring function here. -/
theorem C9_semantic_search_top5 (sim : String → Rat) (user : String)
    (st : RedisState) :
    (semanticTop sim user st).length
      = min 5 (semanticCandidates sim user st).length ∧
    List.Pairwise (fun a b => b.similarity ≤ a.similarity)
      (semanticTop sim user st) ∧
    (∀ r ∈ semanticTop sim user st, r ∈ semanticCandidates sim user st) ∧
    ∃ sorted, sorted.Perm (semanticCandidates sim user st) ∧
      List.Pairwise (fun a b => b.similarity ≤ a.similarity) sorted ∧
      semanticTop sim user st = sorted.take 5 := by
  have hperm := List.mergeSort_perm (semanticCandidates sim user st)
    simDescending
  have hsorted := List.sorted_mergeSort simDescending_trans
    simDescending_total (semanticCandidates sim user st)
  have hpair : List.Pairwise (fun a b => b.similarity ≤ a.similarity)
      ((semanticCandidates sim user st).mergeSort simDescending) := by
    refine hsorted.imp ?_
    intro a b h
    simpa [simDescending] using h
  refine ⟨?_, ?_, ?_, ?_⟩
  · show (((semanticCandidates sim user st).mergeSort
      simDescending).take 5).length = _
    rw [List.length_take, hperm.length_eq]
  · exact List.Pairwise.sublist (List.take_sublist 5 _) hpair
  · intro r hr
    have hmem : r ∈ (semanticCandidates sim user st).mergeSort
        simDescending := (List.take_sublist 5 _).subset hr
    exact hperm.mem_iff.mp hmem
  · exact ⟨(semanticCandidates sim user st).mergeSort simDescending,
      hperm, hpair, rfl⟩

/-- C6: the three preference tools never propagate an exception to the
caller: modelled exceptions from the vectorizer, the Redis client, the
environment, the seed file and the delegated reseed are all caught, the
return type is a plain string, and under every modelled internal failure
the returned string is a user-facing error message opening with the
cross mark. -/
theorem C6_tools_catch_failures (renv : RememberEnv) (senv : SearchEnv)
    (rsenv : ReseedEnv) (user pref uq q : String)
    (st st2 st3 : RedisState) :
    ((!renv.clientAvailable || !renv.vectorizerAvailable) = true ∨
      (∃ e, renv.embed = .error e) ∨ renv.hsetFault ≠ none →
      isErrorMessage (remember_preference renv user pref st).1) ∧
    ((!senv.clientAvailable || !senv.vectorizerAvailable) = true ∨
      (∃ e, senv.embedQuery = .error e) ∨ senv.redisFault ≠ none →
      isErrorMessage (get_semantic_preferences senv uq q st2)) ∧
    (rsenv.clientAvailable = false ∨ rsenv.redisFault ≠ none ∨
      rsenv.importFault ≠ none ∨ rsenv.redisUrl = none ∨
      (∃ e, rsenv.loadSeed = .error e) ∨
      (∃ doc, rsenv.loadSeed = .ok doc ∧ doc.getObj = none) ∨
      (∃ e, rsenv.seedResult = .error e) →
      isErrorMessage (reseed_user_preferences rsenv st3).1) := by
  refine ⟨?_, ?_, ?_⟩
  · intro hfail
    cases hcv : (!renv.clientAvailable || !renv.vectorizerAvailable) with
    | true =>
      have hres : (remember_preference renv user pref st).1
          = "❌ Preference storage service is not available." := by
        simp [remember_preference, hcv]
      rw [hres]
      exact ⟨" Preference storage service is not available.", rfl⟩
    | false =>
      rcases hemb : renv.embed with e | emb
      · have hres : (remember_preference renv user pref st).1
            = "❌ Sorry, I couldn\x27t store that preference: " ++ e := by
          simp [remember_preference, hcv, hemb]
        rw [hres]
        refine ⟨" Sorry, I couldn\x27t store that preference: " ++ e, ?_⟩
        rw [← String.append_assoc]; rfl
      · rcases hf : renv.hsetFault with _ | e
        · exfalso
          rcases hfail with h | ⟨e2, h⟩ | h
          · rw [hcv] at h; exact Bool.false_ne_true h
          · rw [hemb] at h; simp at h
          · exact h hf
        · have hres : (remember_preference renv user pref st).1
              = "❌ Sorry, I couldn\x27t store that preference: " ++ e := by
            simp [remember_preference, hcv, hemb, hf]
          rw [hres]
          refine ⟨" Sorry, I couldn\x27t store that preference: " ++ e, ?_⟩
          rw [← String.append_assoc]; rfl
  · intro hfail
    cases hcv : (!senv.clientAvailable || !senv.vectorizerAvailable) with
    | true =>
      have hres : get_semantic_preferences senv uq q st2
          = "❌ Semantic search service is not available." := by
        simp [get_semantic_preferences, hcv]
      rw [hres]
      exact ⟨" Semantic search service is not available.", rfl⟩
    | false =>
      rcases hemb : senv.embedQuery with e | emb
      · have hres : get_semantic_preferences senv uq q st2
            = "❌ Error searching preferences: " ++ e := by
          simp [get_semantic_preferences, hcv, hemb]
        rw [hres]
        refine ⟨" Error searching preferences: " ++ e, ?_⟩
        rw [← String.append_assoc]; rfl
      · rcases hf : senv.redisFault with _ | e
        · exfalso
          rcases hfail with h | ⟨e2, h⟩ | h
          · rw [hcv] at h; exact Bool.false_ne_true h
          · rw [hemb] at h; simp at h
          · exact h hf
        · have hres : get_semantic_preferences senv uq q st2
              = "❌ Error searching preferences: " ++ e := by
            simp [get_semantic_preferences, hcv, hemb, hf]
          rw [hres]
          refine ⟨" Error searching preferences: " ++ e, ?_⟩
          rw [← String.append_assoc]; rfl
  · intro hfail
    cases hc : rsenv.clientAvailable with
    | false =>
      have hres : (reseed_user_preferences rsenv st3).1
          = "❌ Cannot reseed - Redis client not available" := by
        simp [reseed_user_preferences, hc]
      rw [hres]
      exact ⟨" Cannot reseed - Redis client not available", rfl⟩
    | true =>
      rcases hrf : rsenv.redisFault with _ | e
      case some =>
        have hres : (reseed_user_preferences rsenv st3).1
            = "❌ Failed to reseed context: " ++ e := by
          simp [reseed_user_preferences, hc, hrf]
        rw [hres]
        refine ⟨" Failed to reseed context: " ++ e, ?_⟩
        rw [← String.append_assoc]; rfl
      rcases hif : rsenv.importFault with _ | e
      case some =>
        have hres : (reseed_user_preferences rsenv st3).1
            = "❌ Failed to reseed context: " ++ e := by
          simp [reseed_user_preferences, hc, hrf, hif]
        rw [hres]
        refine ⟨" Failed to reseed context: " ++ e, ?_⟩
        rw [← String.append_assoc]; rfl
      rcases hurl : rsenv.redisUrl with _ | url
      case none =>
        have hres : (reseed_user_preferences rsenv st3).1
            = "❌ REDIS_URL environment variable not set" := by
          simp [reseed_user_preferences, hc, hrf, hif, hurl]
        rw [hres]
        exact ⟨" REDIS_URL environment variable not set", rfl⟩
      rcases hload : rsenv.loadSeed with e | doc
      case error =>
        have hres : (reseed_user_preferences rsenv st3).1
            = "❌ Failed to reseed context: " ++ e := by
          simp [reseed_user_preferences, hc, hrf, hif, hurl, hload]
        rw [hres]
        refine ⟨" Failed to reseed context: " ++ e, ?_⟩
        rw [← String.append_assoc]; rfl
      rcases hobj : doc.getObj with _ | fields
      case none =>
        have hres : (reseed_user_preferences rsenv st3).1
            = "❌ Failed to reseed context: AttributeError" := by
          simp [reseed_user_preferences, hc, hrf, hif, hurl, hload, hobj]
        rw [hres]
        exact ⟨" Failed to reseed context: AttributeError", rfl⟩
      rcases hum : ((fields.lookup "user_memories").getD (.obj [])).getObj
        with _ | users
      case none =>
        have hres : (reseed_user_preferences rsenv st3).1
            = "❌ Failed to reseed context: AttributeError" := by
          simp [reseed_user_preferences, hc, hrf, hif, hurl, hload, hobj,
            hum]
        rw [hres]
        exact ⟨" Failed to reseed context: AttributeError", rfl⟩
      rcases hseed : rsenv.seedResult with e | b
      case error =>
        have hres : (reseed_user_preferences rsenv st3).1
            = "❌ Failed to reseed context: " ++ e := by
          simp [reseed_user_preferences, hc, hrf, hif, hurl, hload, hobj,
            hum, hseed]
        rw [hres]
        refine ⟨" Failed to reseed context: " ++ e, ?_⟩
        rw [← String.append_assoc]; rfl
      exfalso
      rcases hfail with h | h | h | h | ⟨e2, h⟩ | ⟨doc2, h, h2⟩ | ⟨e2, h⟩
      · rw [hc] at h; simp at h
      · exact h hrf
      · exact h hif
      · rw [hurl] at h; simp at h
      · rw [hload] at h; simp at h
      · rw [hload] at h
        have hd : doc = doc2 := by simpa using h
        rw [← hd] at h2
        rw [hobj] at h2
        simp at h2
      · rw [hseed] at h; simp at h

/-- Witness for C6: each tool invoked with a concrete failing
environment returns a cross-marked error string. -/
theorem C6_tools_catch_failures_witness :
    isErrorMessage (remember_preference
      ⟨false, true, .ok "", none, "d0", "t0"⟩ "Mark" "p" ⟨[]⟩).1 ∧
    isErrorMessage (get_semantic_preferences
      ⟨true, true, .error "boom", none, fun _ _ => 0⟩ "Mark" "q" ⟨[]⟩) ∧
    isErrorMessage (reseed_user_preferences
      ⟨false, none, none, none, .ok .null, .ok true⟩ ⟨[]⟩).1 := by
  have h := C6_tools_catch_failures
    ⟨false, true, .ok "", none, "d0", "t0"⟩
    ⟨true, true, .error "boom", none, fun _ _ => 0⟩
    ⟨false, none, none, none, .ok .null, .ok true⟩
    "Mark" "p" "Mark" "q" ⟨[]⟩ ⟨[]⟩ ⟨[]⟩
  exact ⟨h.1 (Or.inl rfl), h.2.1 (Or.inr (Or.inl ⟨"boom", rfl⟩)),
    h.2.2 (Or.inl rfl)⟩

end CoolVibes
